import Mathlib

/-!
Verification development for the warpmail asynchronous thread-ingestion
pipeline (apps/api/src/receiver/receiver.service.ts and the annotation
collaborator agents.service.ts).  The definitions below are a shallow
embedding of the TypeScript source: remote calls (mailbox API, cache,
database, downstream collaborators) are supplied as oracles, JavaScript
values that can be `undefined | null | string` are modelled by an explicit
three-way type, and thrown exceptions are modelled with `Except`.
-/

namespace Warpmail

/-- Constant `this.BATCH_SIZE` in ReceiverService. -/
def BATCH_SIZE : Nat := 100

/-- Constant `this.MAX_THREADS_PER_USER` in ReceiverService. -/
def MAX_THREADS_PER_USER : Nat := 500

/-- Constant `this.MAX_CONCURRENT_MESSAGES` in ReceiverService. -/
def MAX_CONCURRENT_MESSAGES : Nat := 10

/-- Constant `maxRetries` in ReceiverService.handleMessageError. -/
def maxRetries : Nat := 3

/-- A JavaScript value that is statically `string | null | undefined`, as used
for the pagination token variable and for the gmail API's optional string
fields. -/
inductive JsStr where
  | undef : JsStr
  | null : JsStr
  | str (s : String) : JsStr
deriving DecidableEq, Repr

/-- JavaScript truthiness of a `string | null | undefined` value:
`undefined`, `null` and the empty string are falsy. -/
def JsStr.truthy : JsStr → Bool
  | JsStr.str s => s ≠ ""
  | _ => false

/-- The string carried by a `JsStr`, defaulting to `""`.  Only used on
branches where truthiness already guarantees the `str` case. -/
def JsStr.strVal : JsStr → String
  | JsStr.str s => s
  | _ => ""

/-- One response of `gmail.users.threads.list` as returned by
`fetchThreadBatch`: the page's thread ids (each `thread.id` is
`string | null | undefined` in the gmail types) and the optional
continuation token. -/
structure ThreadListPage where
  items : List JsStr
  nextPageToken : JsStr
deriving DecidableEq, Repr

/-- The in-memory filter loop over one page's threads
(receiver.service.ts lines 322-327): stop once the budget is reached
(`if (threadIds.size >= remainingThreadsNeeded) break`), keep a thread id
only if it is truthy and not already processed, and add it to the `Set`
(which silently drops ids already collected). -/
def addPageItems (existing : List String) (remaining : Nat) :
    List String → List JsStr → List String
  | acc, [] => acc
  | acc, item :: rest =>
    if remaining ≤ acc.length then acc
    else if item.truthy ∧ item.strVal ∉ existing then
      addPageItems existing remaining
        (if item.strVal ∈ acc then acc else acc ++ [item.strVal]) rest
    else addPageItems existing remaining acc rest

/-- The `while` loop of `fetchNewThreads` (receiver.service.ts lines
314-328).  The environment is the sequence of responses the mailbox API
serves during this cycle: each call to `fetchThreadBatch` consumes the next
entry, which is either a page or a thrown error (`fetchThreadBatch`
rethrows).  The loop runs while `pageToken !== undefined` and fewer than
`remaining` new ids have been collected.  `none` means the response
sequence was exhausted while the loop still wanted to continue (the run is
not fully determined by the supplied environment); otherwise the result is
the thrown error, or the collected ids, final token and the number of list
calls made. -/
def fetchLoop (existing : List String) (remaining : Nat) :
    List (Except String ThreadListPage) → JsStr → List String → Nat →
    Option (Except String (List String × JsStr) × Nat)
  | pages, pageToken, acc, calls =>
    if pageToken ≠ JsStr.undef ∧ acc.length < remaining then
      match pages with
      | [] => none
      | Except.error e :: _ => some (Except.error e, calls + 1)
      | Except.ok pg :: rest =>
        fetchLoop existing remaining rest pg.nextPageToken
          (addPageItems existing remaining acc pg.items) (calls + 1)
    else
      some (Except.ok (acc, pageToken), calls)

/-- A mutation of the cursor store entry: `redis.del` or
`redis.set(key, token, 'EX', ttl)`. -/
inductive CursorOp where
  | del : CursorOp
  | setToken (token : String) (ttlSeconds : Nat) : CursorOp
deriving DecidableEq, Repr

/-- The pagination-state update on loop exit (receiver.service.ts lines
330-335): `if (!pageToken || threadIds.size >= remainingThreadsNeeded)`
delete the cursor, else persist the token with a one-hour expiry. -/
def cursorOpOf (remaining : Nat) (finalToken : JsStr) (found : Nat) : CursorOp :=
  if finalToken.truthy = false ∨ remaining ≤ found then CursorOp.del
  else CursorOp.setToken finalToken.strVal (60 * 60)

/-- Effect of a cursor-store mutation on the value stored at the user's
pagination key (`none` = key absent). -/
def applyCursorOp (op : CursorOp) : Option String :=
  match op with
  | CursorOp.del => none
  | CursorOp.setToken s _ => some s

/-- The cursor-store key used by `processMessage`
(receiver.service.ts line 139). -/
def paginationKey (userId : String) : String := "pagination:" ++ userId

/-- Model of `fetchNewThreads` (receiver.service.ts lines 293-342).
Inputs: the user's already-processed thread ids, the value currently stored
at the pagination key (`redis.get` returns the string or `null`), and the
mailbox response sequence.  Output (when determined): the result
(new thread ids, or the propagated error), the final value stored at the
pagination key, and the number of mailbox list calls made.  On the early
return (cap already reached) and on the error path the cursor store is not
touched, exactly as in the source where no redis write occurs there. -/
def fetchNewThreads (existingThreadIds : List String)
    (storedCursor : Option String)
    (pages : List (Except String ThreadListPage)) :
    Option (Except String (List String) × Option String × Nat) :=
  let remainingThreadsNeeded : Int :=
    (MAX_THREADS_PER_USER : Int) - (existingThreadIds.length : Int)
  if remainingThreadsNeeded ≤ 0 then
    some (Except.ok [], storedCursor, 0)
  else
    let initialToken : JsStr :=
      match storedCursor with
      | none => JsStr.null
      | some s => JsStr.str s
    match fetchLoop existingThreadIds remainingThreadsNeeded.toNat pages
        initialToken [] 0 with
    | none => none
    | some (Except.error e, calls) => some (Except.error e, storedCursor, calls)
    | some (Except.ok (acc, finalToken), calls) =>
      some (Except.ok acc,
        applyCursorOp (cursorOpOf remainingThreadsNeeded.toNat finalToken acc.length),
        calls)

/-- The mutable admission-gate state of ReceiverService:
`activeProcessingCount` and the `processingMessages` set (modelled as a
list in insertion order; `tryAdmit` never inserts a duplicate). -/
structure GateState where
  activeProcessingCount : Nat
  processingMessages : List String
deriving DecidableEq, Repr

/-- Computation `message.messageId?.toString() || ''` (receiver.service.ts line 93):
a missing message identifier yields the empty string. -/
def messageKey (messageId : Option String) : String := messageId.getD ""

/-- The admission check and slot acquisition at the top of the subscribe
callback (receiver.service.ts lines 94-105): refuse if the identifier is
already being processed, refuse if the active count has reached
`MAX_CONCURRENT_MESSAGES`, otherwise increment the count and record the
identifier.  Returns the new state and whether the message was admitted. -/
def tryAdmit (s : GateState) (mid : String) : GateState × Bool :=
  if mid ∈ s.processingMessages then (s, false)
  else if MAX_CONCURRENT_MESSAGES ≤ s.activeProcessingCount then (s, false)
  else
    ({ activeProcessingCount := s.activeProcessingCount + 1,
       processingMessages := mid :: s.processingMessages }, true)

/-- The `finally` block (receiver.service.ts lines 119-125): remove the
identifier from the set and decrement the count. -/
def releaseSlot (s : GateState) (mid : String) : GateState :=
  { activeProcessingCount := s.activeProcessingCount - 1,
    processingMessages := s.processingMessages.erase mid }

/-- The states the admission gate can reach: from the initial state, any
interleaving of admissions (the synchronous check-and-increment prefix of
the callback) and releases (the `finally` of an admitted callback, which
only ever runs while its own identifier is still recorded, since only that
callback's `finally` deletes it). -/
inductive GateReachable : GateState → Prop where
  | init : GateReachable { activeProcessingCount := 0, processingMessages := [] }
  | acquire (s : GateState) (mid : String) :
      GateReachable s → GateReachable (tryAdmit s mid).1
  | release (s : GateState) (mid : String) :
      GateReachable s → mid ∈ s.processingMessages →
      GateReachable (releaseSlot s mid)

/-- The disposition of a bus message decided by the subscribe callback. -/
inductive BusAction where
  | complete : BusAction
  | abandon : BusAction
  | deadLetter (reason : String) (description : String) : BusAction
deriving DecidableEq, Repr

/-- Model of `handleMessageError` (receiver.service.ts lines 151-171):
`retryCount = (message.deliveryCount || 0) + 1`; abandon the message while
`retryCount <= maxRetries`, otherwise dead-letter it with reason
`"Max retries exceeded"` and the error's message as description. -/
def handleMessageError (deliveryCount : Option Nat) (errMsg : String) : BusAction :=
  let retryCount := deliveryCount.getD 0 + 1
  if retryCount ≤ maxRetries then BusAction.abandon
  else BusAction.deadLetter "Max retries exceeded" errMsg

/-- The try/catch around `processMessage` in the subscribe callback
(receiver.service.ts lines 107-118): on success the message is completed,
on a thrown error `handleMessageError` decides abandon vs dead-letter. -/
def handlerAction (outcome : Except String Unit) (deliveryCount : Option Nat) :
    BusAction :=
  match outcome with
  | Except.ok _ => BusAction.complete
  | Except.error e => handleMessageError deliveryCount e

/-- Externally visible effects of one invocation of the subscribe
callback: running the pipeline (`processMessage`, which is what touches the
cursor store, the dedup ledger and the downstream collaborators), and the
bus disposition. -/
inductive HandlerEffect where
  | runPipeline : HandlerEffect
  | bus (action : BusAction) : HandlerEffect
deriving DecidableEq, Repr

/-- One full invocation of the subscribe callback (receiver.service.ts
lines 92-126) for a message with the given identifier, pipeline outcome and
delivery count: the admission gate decides; a refused message produces no
effects and leaves the state unchanged; an admitted message runs the
pipeline, is completed or handed to `handleMessageError`, and its slot is
released in the `finally`.  Returns the final state, the effects in order,
and whether the message was admitted. -/
def processArrival (s : GateState) (messageId : Option String)
    (outcome : Except String Unit) (deliveryCount : Option Nat) :
    GateState × List HandlerEffect × Bool :=
  let mid := messageKey messageId
  match tryAdmit s mid with
  | (s1, false) => (s1, [], false)
  | (s1, true) =>
    (releaseSlot s1 mid,
     [HandlerEffect.runPipeline,
      HandlerEffect.bus (handlerAction outcome deliveryCount)], true)

/-- The payload of one `gmail.users.threads.get` response that
`processThreads` uses: the thread's message ids (each `message.id` is
`string | null | undefined` in the gmail types; an absent `messages` array
is the empty list, matching `thread.messages || []`). -/
structure ThreadData where
  messages : List JsStr
deriving DecidableEq, Repr

/-- Model of `batchGetMessages` (receiver.service.ts lines 208-226): fetch every
message id via `Promise.all`; if any individual fetch rejects the whole
`Promise.all` rejects and the catch rethrows, so the call fails as a whole
(modelled with the leftmost failing fetch).  The fetched bodies themselves
are discarded by the caller, so they are modelled as `Unit`. -/
def batchGetMessages (messageGet : JsStr → Except String Unit) :
    List JsStr → Except String (List Unit)
  | [] => Except.ok []
  | id :: rest =>
    match messageGet id with
    | Except.error e => Except.error e
    | Except.ok u =>
      match batchGetMessages messageGet rest with
      | Except.error e => Except.error e
      | Except.ok us => Except.ok (u :: us)

/-- Error flow of `AgentsService.autoAnnotate`
(apps/api/src/agents/agents.service.ts): the initial fetch of existing
annotations sits inside the outer try whose catch rethrows; each thread of
the batch is then handled inside an inner try whose catch only logs, so a
per-thread failure contributes nothing to the results but never makes the
call throw.  The per-thread body (thread fetch, per-message AI calls and
row writes) is the oracle `threadWork`. -/
def autoAnnotate (annotationsFetch : Except String Unit)
    (threadWork : String → Except String (List String)) :
    List String → Except String (List String)
  | threadIds =>
    match annotationsFetch with
    | Except.error e => Except.error e
    | Except.ok _ =>
      Except.ok (threadIds.foldl
        (fun results tid =>
          match threadWork tid with
          | Except.ok anns => results ++ anns
          | Except.error _ => results) [])

/-- The remote collaborators used while processing one batch of threads:
`gmail.users.threads.get` per thread, `gmail.users.messages.get` per
message id, the annotation collaborator's initial ledger read and
per-thread work, and `processThread` (the embedding dispatch) per thread. -/
structure PipelineOracles where
  threadFetch : String → Except String ThreadData
  messageGet : JsStr → Except String Unit
  annotationsFetch : Except String Unit
  threadWork : String → Except String (List String)
  embed : String → Except String Unit

/-- The message ids extracted from a slice (receiver.service.ts lines
256-263): map each thread id through `threads.get`, keep the successful
fetches (failures became `null`), concatenate their message ids and drop
the `undefined` ones (`id !== undefined`). -/
def sliceMessageIds (o : PipelineOracles) (slice : List String) : List JsStr :=
  ((slice.map (fun tid => (o.threadFetch tid).toOption)).filterMap id).flatMap
    (fun td => td.messages.filter (fun m => m ≠ JsStr.undef))

/-- Observable record of processing one slice of thread ids inside
`processThreads`: the per-thread fetch results (`null` for failures), the
extracted message ids, the result of the `batchGetMessages` call if it was
made, the result of the `autoAnnotate` call if it was made, the embedding
dispatches actually made with their outcomes, and the error logged by the
slice-level catch, if any. -/
structure SliceTrace where
  threadsData : List (Option ThreadData)
  messageIds : List JsStr
  batchGet : Option (Except String (List Unit))
  annotateResult : Option (Except String (List String))
  embeds : List (String × Except String Unit)
  sliceErrorLogged : Option String

/-- One iteration of the batch loop of `processThreads`
(receiver.service.ts lines 234-290): fetch every thread of the slice in
parallel with per-thread failures mapped to `null`; extract message ids and
`continue` if there are none; call `batchGetMessages` (whose failure is
caught by the slice-level catch, skipping annotation and embeddings); call
`autoAnnotate` (likewise); then dispatch `processThread` for every thread
of the slice, each with its own `.catch` so embedding failures only get
logged and never abort the slice. -/
def processSlice (o : PipelineOracles) (slice : List String) : SliceTrace :=
  if (sliceMessageIds o slice).isEmpty then
    { threadsData := slice.map (fun tid => (o.threadFetch tid).toOption),
      messageIds := sliceMessageIds o slice, batchGet := none,
      annotateResult := none, embeds := [], sliceErrorLogged := none }
  else
    match batchGetMessages o.messageGet (sliceMessageIds o slice) with
    | Except.error e =>
      { threadsData := slice.map (fun tid => (o.threadFetch tid).toOption),
        messageIds := sliceMessageIds o slice,
        batchGet := some (Except.error e), annotateResult := none,
        embeds := [], sliceErrorLogged := some e }
    | Except.ok ms =>
      match autoAnnotate o.annotationsFetch o.threadWork slice with
      | Except.error e =>
        { threadsData := slice.map (fun tid => (o.threadFetch tid).toOption),
          messageIds := sliceMessageIds o slice,
          batchGet := some (Except.ok ms),
          annotateResult := some (Except.error e),
          embeds := [], sliceErrorLogged := some e }
      | Except.ok anns =>
        { threadsData := slice.map (fun tid => (o.threadFetch tid).toOption),
          messageIds := sliceMessageIds o slice,
          batchGet := some (Except.ok ms),
          annotateResult := some (Except.ok anns),
          embeds := slice.map (fun tid => (tid, o.embed tid)),
          sliceErrorLogged := none }

/-- The slicing of the thread-id list into batches of `BATCH_SIZE`
(`for (let i = 0; i < threadIds.length; i += this.BATCH_SIZE)`), written
with a structural fuel argument: every step consumes at least one element
while spending exactly one unit of fuel, so with fuel = initial length the
zero-fuel case is unreachable. -/
def chunkedAux : Nat → List String → List (List String)
  | _, [] => []
  | 0, l => [l]
  | fuel + 1, x :: xs =>
    (x :: xs.take (BATCH_SIZE - 1)) :: chunkedAux fuel (xs.drop (BATCH_SIZE - 1))

/-- The batch slicing of `processThreads`. -/
def chunked (l : List String) : List (List String) := chunkedAux l.length l

/-- Model of `processThreads` (receiver.service.ts lines 228-291): process the
slices sequentially.  Every slice-level error is caught and logged inside
the loop, so the function itself never throws. -/
def processThreads (o : PipelineOracles) (threadIds : List String) :
    List SliceTrace :=
  (chunked threadIds).map (processSlice o)

/-- The outcome `processMessage` presents to the subscribe callback's
try/catch: success, or the propagated error. -/
def pipelineOutcome (r : Except String (List SliceTrace)) : Except String Unit :=
  match r with
  | Except.ok _ => Except.ok ()
  | Except.error e => Except.error e

/-- Model of `processMessage` (receiver.service.ts lines 133-149): read the dedup
ledger (`getExistingThreads`, whose failure throws), run thread discovery
(whose failure throws), then `processThreads`.  Returns the result
presented to the caller together with the final cursor-store value; `none`
when discovery's run is not determined by the supplied page sequence. -/
def processMessage (existingFetch : Except String (List String))
    (storedCursor : Option String)
    (pages : List (Except String ThreadListPage)) (o : PipelineOracles) :
    Option (Except String (List SliceTrace) × Option String) :=
  match existingFetch with
  | Except.error e => some (Except.error e, storedCursor)
  | Except.ok existing =>
    match fetchNewThreads existing storedCursor pages with
    | none => none
    | some (Except.error e, store, _) => some (Except.error e, store)
    | some (Except.ok tids, store, _) =>
      some (Except.ok (processThreads o tids), store)

/-- Collaborators that all succeed, used to instantiate runs at concrete
inputs. -/
def trivialOracle : PipelineOracles :=
  { threadFetch := fun _ => Except.ok { messages := [] },
    messageGet := fun _ => Except.ok (),
    annotationsFetch := Except.ok (),
    threadWork := fun _ => Except.ok [],
    embed := fun _ => Except.ok () }

/-- Collaborators where the individual message-body fetch for id "m2"
rejects while everything else succeeds. -/
def msgFailOracle : PipelineOracles :=
  { threadFetch := fun _ =>
      Except.ok { messages := [JsStr.str "m1", JsStr.str "m2"] },
    messageGet := fun id =>
      if id = JsStr.str "m2" then Except.error "boom" else Except.ok (),
    annotationsFetch := Except.ok (),
    threadWork := fun _ => Except.ok [],
    embed := fun _ => Except.ok () }

/-- Collaborators where the annotation work for thread "t1" fails and the
embedding dispatch for thread "t2" fails, while fetching succeeds. -/
def mixedFailOracle : PipelineOracles :=
  { threadFetch := fun _ => Except.ok { messages := [JsStr.str "m1"] },
    messageGet := fun _ => Except.ok (),
    annotationsFetch := Except.ok (),
    threadWork := fun tid =>
      if tid = "t1" then Except.error "annfail" else Except.ok ["a"],
    embed := fun tid =>
      if tid = "t2" then Except.error "embfail" else Except.ok () }

/-- Collaborators where every individual message-body fetch rejects, so the
first slice's batch fetch fails. -/
def c9Oracle : PipelineOracles :=
  { threadFetch := fun _ => Except.ok { messages := [JsStr.str "m1"] },
    messageGet := fun _ => Except.error "boom",
    annotationsFetch := Except.ok (),
    threadWork := fun _ => Except.ok [],
    embed := fun _ => Except.ok () }

/-! ### Lemmas about the discovery loop -/

theorem mem_addPageItems (existing : List String) (remaining : Nat) :
    ∀ (items : List JsStr) (acc : List String) (t : String),
      t ∈ addPageItems existing remaining acc items → t ∈ acc ∨ t ∉ existing := by
  intro items
  induction items with
  | nil => intro acc t h; exact Or.inl h
  | cons item rest ih =>
    intro acc t h
    simp only [addPageItems] at h
    by_cases h1 : remaining ≤ acc.length
    · rw [if_pos h1] at h; exact Or.inl h
    · rw [if_neg h1] at h
      by_cases h2 : item.truthy ∧ item.strVal ∉ existing
      · rw [if_pos h2] at h
        rcases ih _ t h with h3 | h3
        · by_cases h4 : item.strVal ∈ acc
          · rw [if_pos h4] at h3; exact Or.inl h3
          · rw [if_neg h4] at h3
            rcases List.mem_append.1 h3 with h5 | h5
            · exact Or.inl h5
            · have h6 : t = item.strVal := List.mem_singleton.1 h5
              rw [h6]
              exact Or.inr h2.2
        · exact Or.inr h3
      · rw [if_neg h2] at h
        exact ih _ t h

theorem nodup_addPageItems (existing : List String) (remaining : Nat) :
    ∀ (items : List JsStr) (acc : List String),
      acc.Nodup → (addPageItems existing remaining acc items).Nodup := by
  intro items
  induction items with
  | nil => intro acc h; exact h
  | cons item rest ih =>
    intro acc h
    simp only [addPageItems]
    by_cases h1 : remaining ≤ acc.length
    · rw [if_pos h1]; exact h
    · rw [if_neg h1]
      by_cases h2 : item.truthy ∧ item.strVal ∉ existing
      · rw [if_pos h2]
        apply ih
        by_cases h4 : item.strVal ∈ acc
        · rw [if_pos h4]; exact h
        · rw [if_neg h4]; simp [List.nodup_append, h, h4]
      · rw [if_neg h2]; exact ih _ h

theorem length_addPageItems (existing : List String) (remaining : Nat) :
    ∀ (items : List JsStr) (acc : List String),
      acc.length ≤ remaining →
      (addPageItems existing remaining acc items).length ≤ remaining := by
  intro items
  induction items with
  | nil => intro acc h; exact h
  | cons item rest ih =>
    intro acc h
    simp only [addPageItems]
    by_cases h1 : remaining ≤ acc.length
    · rw [if_pos h1]; exact h
    · rw [if_neg h1]
      by_cases h2 : item.truthy ∧ item.strVal ∉ existing
      · rw [if_pos h2]
        apply ih
        by_cases h4 : item.strVal ∈ acc
        · rw [if_pos h4]; exact h
        · rw [if_neg h4]
          simp only [List.length_append, List.length_singleton]
          omega
      · rw [if_neg h2]; exact ih _ h

theorem fetchLoop_exit_case (existing : List String) (remaining : Nat)
    (res : List String) (tokF : JsStr)
    (h1 : ¬(tokF ≠ JsStr.undef ∧ res.length < remaining)) :
    (∀ t ∈ res, t ∈ res ∨ t ∉ existing) ∧ (res.Nodup → res.Nodup) ∧
      (res.length ≤ remaining → res.length ≤ remaining) ∧
      (tokF = JsStr.undef ∨ remaining ≤ res.length) := by
  push_neg at h1
  refine ⟨fun t ht => Or.inl ht, fun h => h, fun h => h, ?_⟩
  by_cases h2 : tokF = JsStr.undef
  · exact Or.inl h2
  · exact Or.inr (h1 h2)

theorem fetchLoop_ok_spec (existing : List String) (remaining : Nat) :
    ∀ (pages : List (Except String ThreadListPage)) (tok : JsStr)
      (acc : List String) (c : Nat) (res : List String) (tokF : JsStr)
      (calls : Nat),
      fetchLoop existing remaining pages tok acc c =
        some (Except.ok (res, tokF), calls) →
      (∀ t ∈ res, t ∈ acc ∨ t ∉ existing) ∧ (acc.Nodup → res.Nodup) ∧
        (acc.length ≤ remaining → res.length ≤ remaining) ∧
        (tokF = JsStr.undef ∨ remaining ≤ res.length) := by
  intro pages
  induction pages with
  | nil =>
    intro tok acc c res tokF calls h
    simp only [fetchLoop] at h
    by_cases h1 : tok ≠ JsStr.undef ∧ acc.length < remaining
    · rw [if_pos h1] at h
      exact absurd h (by simp)
    · rw [if_neg h1] at h
      simp only [Option.some.injEq, Prod.mk.injEq, Except.ok.injEq] at h
      obtain ⟨⟨ha, ht⟩, _⟩ := h
      subst ha
      subst ht
      exact fetchLoop_exit_case existing remaining _ _ h1
  | cons pg rest ih =>
    intro tok acc c res tokF calls h
    cases pg with
    | error e =>
      simp only [fetchLoop] at h
      by_cases h1 : tok ≠ JsStr.undef ∧ acc.length < remaining
      · rw [if_pos h1] at h
        exact absurd h (by simp)
      · rw [if_neg h1] at h
        simp only [Option.some.injEq, Prod.mk.injEq, Except.ok.injEq] at h
        obtain ⟨⟨ha, ht⟩, _⟩ := h
        subst ha
        subst ht
        exact fetchLoop_exit_case existing remaining _ _ h1
    | ok page =>
      simp only [fetchLoop] at h
      by_cases h1 : tok ≠ JsStr.undef ∧ acc.length < remaining
      · rw [if_pos h1] at h
        obtain ⟨m1, m2, m3, m4⟩ := ih _ _ _ _ _ _ h
        refine ⟨?_, ?_, ?_, m4⟩
        · intro t ht
          rcases m1 t ht with h2 | h2
          · exact mem_addPageItems existing remaining _ _ _ h2
          · exact Or.inr h2
        · intro hnd; exact m2 (nodup_addPageItems _ _ _ _ hnd)
        · intro hlen; exact m3 (length_addPageItems _ _ _ _ hlen)
      · rw [if_neg h1] at h
        simp only [Option.some.injEq, Prod.mk.injEq, Except.ok.injEq] at h
        obtain ⟨⟨ha, ht⟩, _⟩ := h
        subst ha
        subst ht
        exact fetchLoop_exit_case existing remaining _ _ h1

theorem fetchNewThreads_res_of_loop (existing : List String)
    (res : List String)
    (h : 0 < (MAX_THREADS_PER_USER : Int) - (existing.length : Int))
    (tok tokF : JsStr) (pages : List (Except String ThreadListPage))
    (calls2 : Nat)
    (hloop : fetchLoop existing
        ((MAX_THREADS_PER_USER : Int) - (existing.length : Int)).toNat pages
        tok [] 0 = some (Except.ok (res, tokF), calls2)) :
    (∀ t ∈ res, t ∉ existing) ∧ res.Nodup ∧
      (res.length : Int) ≤
        (MAX_THREADS_PER_USER : Int) - (existing.length : Int) := by
  obtain ⟨m1, m2, m3, -⟩ :=
    fetchLoop_ok_spec existing _ pages _ [] 0 res tokF calls2 hloop
  refine ⟨?_, m2 List.nodup_nil, ?_⟩
  · intro t ht
    rcases m1 t ht with h2 | h2
    · exact absurd h2 (List.not_mem_nil t)
    · exact h2
  · have h3 := m3 (Nat.zero_le _)
    omega

/-- Claim C1: postcondition of thread discovery.  If the per-user cap (500)
minus the number of already-processed thread ids is ≤ 0, `fetchNewThreads`
returns the empty list immediately, leaves the cursor store alone and makes
no mailbox list call; otherwise any returned list contains no identifier
from the already-processed set, contains no duplicates, and its length
never exceeds the cap minus the number of already-processed ids. -/
theorem fetchNewThreads_postcondition (existing : List String)
    (cursor : Option String) (pages : List (Except String ThreadListPage)) :
    ((MAX_THREADS_PER_USER : Int) - (existing.length : Int) ≤ 0 →
      fetchNewThreads existing cursor pages = some (Except.ok [], cursor, 0))
    ∧ (0 < (MAX_THREADS_PER_USER : Int) - (existing.length : Int) →
      ∀ (res : List String) (store : Option String) (calls : Nat),
        fetchNewThreads existing cursor pages =
          some (Except.ok res, store, calls) →
        (∀ t ∈ res, t ∉ existing) ∧ res.Nodup ∧
          (res.length : Int) ≤
            (MAX_THREADS_PER_USER : Int) - (existing.length : Int)) := by
  constructor
  · intro h
    simp only [fetchNewThreads]
    rw [if_pos h]
  · intro h res store calls hres
    simp only [fetchNewThreads] at hres
    rw [if_neg (by omega)] at hres
    cases cursor with
    | none =>
      rcases hloop : fetchLoop existing
          ((MAX_THREADS_PER_USER : Int) - (existing.length : Int)).toNat pages
          JsStr.null [] 0 with _ | ⟨outcome, calls2⟩
      · rw [hloop] at hres; exact absurd hres (by simp)
      · rw [hloop] at hres
        cases outcome with
        | error e => exact absurd hres (by simp)
        | ok p =>
          obtain ⟨acc, tokF⟩ := p
          simp only [Option.some.injEq, Prod.mk.injEq, Except.ok.injEq] at hres
          obtain ⟨hacc, -, -⟩ := hres
          rw [← hacc]
          exact fetchNewThreads_res_of_loop existing acc h JsStr.null tokF
            pages calls2 hloop
    | some s =>
      rcases hloop : fetchLoop existing
          ((MAX_THREADS_PER_USER : Int) - (existing.length : Int)).toNat pages
          (JsStr.str s) [] 0 with _ | ⟨outcome, calls2⟩
      · rw [hloop] at hres; exact absurd hres (by simp)
      · rw [hloop] at hres
        cases outcome with
        | error e => exact absurd hres (by simp)
        | ok p =>
          obtain ⟨acc, tokF⟩ := p
          simp only [Option.some.injEq, Prod.mk.injEq, Except.ok.injEq] at hres
          obtain ⟨hacc, -, -⟩ := hres
          rw [← hacc]
          exact fetchNewThreads_res_of_loop existing acc h (JsStr.str s) tokF
            pages calls2 hloop

/-- Witness for C1 at a concrete input: one already-processed id, one page
with one fresh thread. -/
theorem fetchNewThreads_postcondition_witness :
    (∀ t ∈ ["a"], t ∉ (["b"] : List String)) ∧ (["a"] : List String).Nodup ∧
      (((["a"] : List String).length : Int) ≤
        (MAX_THREADS_PER_USER : Int) - ((["b"] : List String).length : Int)) :=
  (fetchNewThreads_postcondition ["b"] none
      [Except.ok { items := [JsStr.str "a"], nextPageToken := JsStr.undef }]).2
    (by decide) ["a"] none 1 (by rfl)

/-- Claim C5: cursor persistence on successful exit of the discovery loop.
The entry at `pagination:{userId}` is written — with the loop's current
page token and a 3600-second expiry — exactly when a next page token
remains (the token is truthy) and the number of newly discovered threads is
still below the remaining capacity; in every other successful exit the
entry is deleted. -/
theorem cursor_persistence_policy (userId : String) (existing : List String)
    (remaining : Nat) (pages : List (Except String ThreadListPage))
    (tok0 tokF : JsStr) (acc0 res : List String) (c0 calls : Nat)
    (_hexit : fetchLoop existing remaining pages tok0 acc0 c0 =
      some (Except.ok (res, tokF), calls)) :
    paginationKey userId = "pagination:" ++ userId
    ∧ (cursorOpOf remaining tokF res.length =
        CursorOp.setToken tokF.strVal (60 * 60) ↔
        (tokF.truthy = true ∧ res.length < remaining))
    ∧ (¬(tokF.truthy = true ∧ res.length < remaining) →
        cursorOpOf remaining tokF res.length = CursorOp.del) := by
  refine ⟨rfl, ?_, ?_⟩
  · unfold cursorOpOf
    by_cases h1 : tokF.truthy = false ∨ remaining ≤ res.length
    · rw [if_pos h1]
      constructor
      · intro h2; exact absurd h2 (by simp)
      · intro h2
        rcases h1 with h1 | h1
        · rw [h2.1] at h1; exact absurd h1 (by simp)
        · exact absurd h2.2 (by omega)
    · rw [if_neg h1]
      push_neg at h1
      simp only [Bool.not_eq_false] at h1
      exact ⟨fun _ => ⟨h1.1, h1.2⟩, fun _ => rfl⟩
  · intro h2
    unfold cursorOpOf
    push_neg at h2
    by_cases ht : tokF.truthy = true
    · rw [if_pos (Or.inr (h2 ht))]
    · rw [if_pos (Or.inl (by simpa using ht))]

/-- Witness for C5 at a concrete loop exit: capacity 1 was reached with a
page token still present, so the cursor is deleted. -/
theorem cursor_persistence_policy_witness :
    paginationKey "u" = "pagination:" ++ "u"
    ∧ cursorOpOf 1 (JsStr.str "next") (["a"] : List String).length =
        CursorOp.del := by
  have h := cursor_persistence_policy "u" [] 1
      [Except.ok { items := [JsStr.str "a"], nextPageToken := JsStr.str "next" }]
      JsStr.null (JsStr.str "next") [] ["a"] 0 1 (by rfl)
  exact ⟨h.1, h.2.2 (by decide)⟩

/-- Claim C6: a page-fetch error mid-pagination propagates to the caller of
`fetchNewThreads` and the cursor store is left exactly as it was at the
start of the cycle: no cursor write or delete occurs on the failure path,
and `processMessage` surfaces the same error to the handler. -/
theorem fetch_error_preserves_cursor (existing : List String)
    (store : Option String) (pages : List (Except String ThreadListPage))
    (e : String) (st : Option String) (calls : Nat) (o : PipelineOracles) :
    (fetchNewThreads existing store pages = some (Except.error e, st, calls) →
      st = store)
    ∧ (fetchNewThreads existing store pages = some (Except.error e, st, calls) →
      processMessage (Except.ok existing) store pages o =
        some (Except.error e, st)) := by
  constructor
  · intro h
    simp only [fetchNewThreads] at h
    by_cases h0 : (MAX_THREADS_PER_USER : Int) - (existing.length : Int) ≤ 0
    · rw [if_pos h0] at h
      exact absurd h (by simp)
    · rw [if_neg h0] at h
      cases store with
      | none =>
        rcases hloop : fetchLoop existing
            ((MAX_THREADS_PER_USER : Int) - (existing.length : Int)).toNat
            pages JsStr.null [] 0 with _ | ⟨outcome, calls2⟩
        · rw [hloop] at h; exact absurd h (by simp)
        · rw [hloop] at h
          cases outcome with
          | error e2 =>
            simp only [Option.some.injEq, Prod.mk.injEq,
              Except.error.injEq] at h
            exact h.2.1.symm
          | ok p =>
            obtain ⟨acc, tokF⟩ := p
            exact absurd h (by simp)
      | some s =>
        rcases hloop : fetchLoop existing
            ((MAX_THREADS_PER_USER : Int) - (existing.length : Int)).toNat
            pages (JsStr.str s) [] 0 with _ | ⟨outcome, calls2⟩
        · rw [hloop] at h; exact absurd h (by simp)
        · rw [hloop] at h
          cases outcome with
          | error e2 =>
            simp only [Option.some.injEq, Prod.mk.injEq,
              Except.error.injEq] at h
            exact h.2.1.symm
          | ok p =>
            obtain ⟨acc, tokF⟩ := p
            exact absurd h (by simp)
  · intro h
    simp only [processMessage]
    rw [h]

/-- Witness for C6 at a concrete input: the first page fetch rejects and
the stored cursor value survives untouched. -/
theorem fetch_error_preserves_cursor_witness :
    (some "tok0" : Option String) = some "tok0"
    ∧ processMessage (Except.ok []) (some "tok0") [Except.error "x"]
        trivialOracle = some (Except.error "x", some "tok0") := by
  have h := fetch_error_preserves_cursor [] (some "tok0") [Except.error "x"]
      "x" (some "tok0") 1 trivialOracle
  exact ⟨h.1 (by rfl), h.2 (by rfl)⟩

/-! ### The admission gate -/

theorem gate_state_inv (s : GateState) (h : GateReachable s) :
    s.activeProcessingCount = s.processingMessages.length ∧
      s.processingMessages.Nodup ∧
      s.activeProcessingCount ≤ MAX_CONCURRENT_MESSAGES := by
  induction h with
  | init => exact ⟨rfl, List.nodup_nil, by norm_num [MAX_CONCURRENT_MESSAGES]⟩
  | acquire s mid hs ih =>
    unfold tryAdmit
    by_cases h1 : mid ∈ s.processingMessages
    · rw [if_pos h1]; exact ih
    · rw [if_neg h1]
      by_cases h2 : MAX_CONCURRENT_MESSAGES ≤ s.activeProcessingCount
      · rw [if_pos h2]; exact ih
      · rw [if_neg h2]
        refine ⟨?_, ?_, ?_⟩
        · show s.activeProcessingCount + 1 = (mid :: s.processingMessages).length
          simp only [List.length_cons, ih.1]
        · exact List.nodup_cons.2 ⟨h1, ih.2.1⟩
        · show s.activeProcessingCount + 1 ≤ MAX_CONCURRENT_MESSAGES
          omega
  | release s mid hs hmem ih =>
    refine ⟨?_, ih.2.1.erase mid, ?_⟩
    · show s.activeProcessingCount - 1 = (s.processingMessages.erase mid).length
      have h4 := List.length_erase_add_one hmem
      have h5 := ih.1
      omega
    · show s.activeProcessingCount - 1 ≤ MAX_CONCURRENT_MESSAGES
      have h5 := ih.2.2
      omega

/-- Claim C2: at every reachable state of the message handler the active
count never exceeds the concurrency limit (10), a message identifier is
held in the in-flight set at most once, and the `finally` cleanup of any
in-flight identifier removes it from the set and decrements the count. -/
theorem admission_gate_invariant (s : GateState) (h : GateReachable s) :
    s.activeProcessingCount ≤ MAX_CONCURRENT_MESSAGES
    ∧ (∀ mid, s.processingMessages.count mid ≤ 1)
    ∧ (∀ mid, mid ∈ s.processingMessages →
        mid ∉ (releaseSlot s mid).processingMessages ∧
          (releaseSlot s mid).activeProcessingCount + 1 =
            s.activeProcessingCount) := by
  obtain ⟨h1, h2, h3⟩ := gate_state_inv s h
  refine ⟨h3, fun mid => List.nodup_iff_count_le_one.1 h2 mid, ?_⟩
  intro mid hmem
  constructor
  · exact h2.not_mem_erase
  · have h4 := List.length_erase_add_one hmem
    show s.activeProcessingCount - 1 + 1 = s.activeProcessingCount
    have h5 : 0 < s.processingMessages.length := List.length_pos_of_mem hmem
    omega

/-- Witness for C2 at a concrete reachable state: the state after one
admission from the initial state. -/
theorem admission_gate_invariant_witness :
    (tryAdmit { activeProcessingCount := 0, processingMessages := [] }
        "m").1.activeProcessingCount ≤ MAX_CONCURRENT_MESSAGES
    ∧ (∀ mid,
        (tryAdmit { activeProcessingCount := 0, processingMessages := [] }
          "m").1.processingMessages.count mid ≤ 1)
    ∧ (∀ mid,
        mid ∈ (tryAdmit { activeProcessingCount := 0, processingMessages := [] }
          "m").1.processingMessages →
        mid ∉ (releaseSlot
            (tryAdmit { activeProcessingCount := 0, processingMessages := [] }
              "m").1 mid).processingMessages ∧
          (releaseSlot
              (tryAdmit { activeProcessingCount := 0, processingMessages := [] }
                "m").1 mid).activeProcessingCount + 1 =
            (tryAdmit { activeProcessingCount := 0, processingMessages := [] }
              "m").1.activeProcessingCount) :=
  admission_gate_invariant _ (GateReachable.acquire _ "m" GateReachable.init)

/-- Claim C3: on a processing failure the message is abandoned (eligible
for redelivery) while the delivery count is below `maxRetries` (3), and
otherwise dead-lettered with reason "Max retries exceeded" and the error's
description; in particular delivery count 4 is dead-lettered. -/
theorem retry_deadletter_policy (dc : Nat) (err : String) :
    (dc < maxRetries → handleMessageError (some dc) err = BusAction.abandon)
    ∧ (maxRetries ≤ dc →
        handleMessageError (some dc) err =
          BusAction.deadLetter "Max retries exceeded" err)
    ∧ handleMessageError (some 4) err =
        BusAction.deadLetter "Max retries exceeded" err := by
  refine ⟨?_, ?_, rfl⟩
  · intro h
    unfold handleMessageError
    simp only [Option.getD_some]
    rw [if_pos (by omega)]
  · intro h
    unfold handleMessageError
    simp only [Option.getD_some]
    rw [if_neg (by omega)]

/-- Witness for C3 at delivery counts 2 (abandoned) and 4
(dead-lettered). -/
theorem retry_deadletter_policy_witness :
    handleMessageError (some 2) "e" = BusAction.abandon
    ∧ handleMessageError (some 4) "e" =
        BusAction.deadLetter "Max retries exceeded" "e" :=
  ⟨(retry_deadletter_policy 2 "e").1 (by decide),
   (retry_deadletter_policy 4 "e").2.1 (by decide)⟩

/-- Claim C4: admission is refused exactly when the identifier is already
in flight or the active count is at the maximum; a refused arrival leaves
the state untouched and produces no effects at all — the pipeline is not
run (so cursor store and dedup ledger are untouched) and no bus
disposition (complete, abandon or dead-letter) is issued. -/
theorem admission_refusal_no_effects (s : GateState)
    (messageId : Option String) (outcome : Except String Unit)
    (dc : Option Nat) :
    ((processArrival s messageId outcome dc).2.2 = false ↔
      (messageKey messageId ∈ s.processingMessages ∨
        MAX_CONCURRENT_MESSAGES ≤ s.activeProcessingCount))
    ∧ ((messageKey messageId ∈ s.processingMessages ∨
          MAX_CONCURRENT_MESSAGES ≤ s.activeProcessingCount) →
        processArrival s messageId outcome dc = (s, [], false)) := by
  by_cases h1 : messageKey messageId ∈ s.processingMessages
  · simp only [processArrival, tryAdmit, if_pos h1]
    exact ⟨⟨fun _ => Or.inl h1, fun _ => trivial⟩, fun _ => trivial⟩
  · by_cases h2 : MAX_CONCURRENT_MESSAGES ≤ s.activeProcessingCount
    · simp only [processArrival, tryAdmit, if_neg h1, if_pos h2]
      exact ⟨⟨fun _ => Or.inr h2, fun _ => trivial⟩, fun _ => trivial⟩
    · simp only [processArrival, tryAdmit, if_neg h1, if_neg h2]
      refine ⟨⟨fun hf => ?_, fun hor => ?_⟩, fun hor => ?_⟩
      · exact absurd hf (by simp)
      · rcases hor with h | h
        · exact absurd h h1
        · exact absurd h h2
      · rcases hor with h | h
        · exact absurd h h1
        · exact absurd h h2

/-- Witness for C4 at a concrete refused arrival: the gate is full. -/
theorem admission_refusal_no_effects_witness :
    processArrival { activeProcessingCount := 10, processingMessages := [] }
      (some "m") (Except.ok ()) none =
      ({ activeProcessingCount := 10, processingMessages := [] }, [], false) :=
  (admission_refusal_no_effects _ _ _ _).2 (Or.inr (by decide))

/-- Claim C10: a bus message lacking a message identifier gets admission
key ""; while one such message is in flight, any other identifier-less
message is refused as a duplicate even though it is a different message,
with no state change and no effects. -/
theorem missing_message_id_collision (s : GateState)
    (outcome : Except String Unit) (dc : Option Nat) :
    messageKey none = ""
    ∧ ("" ∈ s.processingMessages →
        processArrival s none outcome dc = (s, [], false)) := by
  refine ⟨rfl, fun hmem => ?_⟩
  have hkey : messageKey none = "" := rfl
  simp only [processArrival, tryAdmit, hkey, if_pos hmem]

/-- Witness for C10: with an identifier-less message in flight, a second
identifier-less arrival is refused. -/
theorem missing_message_id_collision_witness :
    messageKey none = ""
    ∧ processArrival { activeProcessingCount := 1, processingMessages := [""] }
        none (Except.ok ()) none =
        ({ activeProcessingCount := 1, processingMessages := [""] }, [],
          false) := by
  have h := missing_message_id_collision
      { activeProcessingCount := 1, processingMessages := [""] }
      (Except.ok ()) none
  exact ⟨h.1, h.2 (by simp)⟩

/-! ### Batch fetching and dispatch -/

theorem batchGetMessages_error_of_mem (g : JsStr → Except String Unit) :
    ∀ (ids : List JsStr) (id : JsStr) (e : String),
      id ∈ ids → g id = Except.error e →
      ∃ e2, batchGetMessages g ids = Except.error e2 := by
  intro ids
  induction ids with
  | nil => intro id e h; exact absurd h (List.not_mem_nil id)
  | cons hd rest ih =>
    intro id e hmem hg
    rcases List.mem_cons.1 hmem with h | h
    · subst h
      exact ⟨e, by simp only [batchGetMessages, hg]⟩
    · cases hghd : g hd with
      | error e2 => exact ⟨e2, by simp only [batchGetMessages, hghd]⟩
      | ok u =>
        obtain ⟨e2, h2⟩ := ih id e h hg
        exact ⟨e2, by simp only [batchGetMessages, hghd, h2]⟩

theorem batchGetMessages_ok_of_all (g : JsStr → Except String Unit)
    (hg : ∀ i, g i = Except.ok ()) :
    ∀ ids : List JsStr, ∃ us, batchGetMessages g ids = Except.ok us := by
  intro ids
  induction ids with
  | nil => exact ⟨[], rfl⟩
  | cons hd rest ih =>
    obtain ⟨us, h2⟩ := ih
    exact ⟨() :: us, by simp only [batchGetMessages, hg hd, h2]⟩

theorem autoAnnotate_ok (tw : String → Except String (List String))
    (slice : List String) :
    autoAnnotate (Except.ok ()) tw slice =
      Except.ok (slice.foldl
        (fun results tid =>
          match tw tid with
          | Except.ok anns => results ++ anns
          | Except.error _ => results) []) := rfl

/-- Counterexample to C7 as stated: in a slice whose thread fetch yields
message ids "m1" and "m2" and where only the individual fetch of "m2"
rejects, `batchGetMessages` rejects as a whole — there is no ok-result with
the failed record omitted — and the slice's annotation and embedding
dispatch are skipped, with the failure caught and logged at the slice
level. -/
theorem message_fetch_failure_fails_batch_cx :
    batchGetMessages msgFailOracle.messageGet
        [JsStr.str "m1", JsStr.str "m2"] = Except.error "boom"
    ∧ (processSlice msgFailOracle ["t1"]).messageIds =
        [JsStr.str "m1", JsStr.str "m2"]
    ∧ (processSlice msgFailOracle ["t1"]).batchGet =
        some (Except.error "boom")
    ∧ (processSlice msgFailOracle ["t1"]).annotateResult = none
    ∧ (processSlice msgFailOracle ["t1"]).embeds = []
    ∧ (processSlice msgFailOracle ["t1"]).sliceErrorLogged = some "boom" :=
  ⟨rfl, rfl, rfl, rfl, rfl, rfl⟩

/-- Claim C7 (amended): a failed per-thread fetch yields a null entry
without aborting the batch (the full per-thread result list is produced and
the slice still completes when the remaining calls succeed); but a failed
individual message-body fetch makes the whole `batchGetMessages` call fail,
which skips the rest of that slice's processing — the slice-level catch
logs it, so the message itself does not fail. -/
theorem batch_fetch_partial_failure (o : PipelineOracles)
    (slice : List String) (g : JsStr → Except String Unit)
    (ids : List JsStr) (id : JsStr) (e e2 : String) :
    ((processSlice o slice).threadsData =
      slice.map (fun tid => (o.threadFetch tid).toOption))
    ∧ ((∀ i, o.messageGet i = Except.ok ()) →
        o.annotationsFetch = Except.ok () →
        (processSlice o slice).sliceErrorLogged = none)
    ∧ (id ∈ ids → g id = Except.error e →
        ∃ e3, batchGetMessages g ids = Except.error e3)
    ∧ (batchGetMessages o.messageGet (sliceMessageIds o slice) =
        Except.error e2 →
        (processSlice o slice).annotateResult = none ∧
          (processSlice o slice).embeds = [] ∧
          (processSlice o slice).sliceErrorLogged = some e2) := by
  refine ⟨?_, ?_, ?_, ?_⟩
  · unfold processSlice
    by_cases hempty : (sliceMessageIds o slice).isEmpty
    · rw [if_pos hempty]
    · rw [if_neg hempty]
      cases hbg : batchGetMessages o.messageGet (sliceMessageIds o slice) with
      | error e3 => rfl
      | ok ms =>
        cases hann : autoAnnotate o.annotationsFetch o.threadWork slice with
        | error e3 => rfl
        | ok anns => rfl
  · intro hmg hann
    unfold processSlice
    by_cases hempty : (sliceMessageIds o slice).isEmpty
    · rw [if_pos hempty]
    · rw [if_neg hempty]
      obtain ⟨us, hbg⟩ :=
        batchGetMessages_ok_of_all o.messageGet hmg (sliceMessageIds o slice)
      rw [hbg, hann, autoAnnotate_ok]
  · exact fun hmem hg => batchGetMessages_error_of_mem g ids id e hmem hg
  · intro hbge
    unfold processSlice
    by_cases hempty : (sliceMessageIds o slice).isEmpty
    · rw [List.isEmpty_iff.1 hempty] at hbge
      exact absurd hbge (by simp [batchGetMessages])
    · rw [if_neg hempty, hbge]
      exact ⟨rfl, rfl, rfl⟩

/-- Witness for C7 (amended) at concrete inputs: an all-successful slice
logs no error; a failing id "m2" makes the batch call fail; a failed batch
call skips the slice's dispatch. -/
theorem batch_fetch_partial_failure_witness :
    (processSlice trivialOracle ["t"]).sliceErrorLogged = none
    ∧ (∃ e3, batchGetMessages msgFailOracle.messageGet [JsStr.str "m2"] =
        Except.error e3)
    ∧ ((processSlice msgFailOracle ["t1"]).annotateResult = none ∧
        (processSlice msgFailOracle ["t1"]).embeds = [] ∧
        (processSlice msgFailOracle ["t1"]).sliceErrorLogged = some "boom") :=
  ⟨(batch_fetch_partial_failure trivialOracle ["t"] trivialOracle.messageGet
      [] JsStr.undef "e" "e").2.1 (fun _ => rfl) rfl,
   (batch_fetch_partial_failure msgFailOracle ["t1"]
      msgFailOracle.messageGet [JsStr.str "m2"] (JsStr.str "m2")
      "boom" "boom").2.2.1 (by simp) (by rfl),
   (batch_fetch_partial_failure msgFailOracle ["t1"]
      msgFailOracle.messageGet [JsStr.str "m2"] (JsStr.str "m2")
      "boom" "boom").2.2.2 (by rfl)⟩

/-- Claim C8: once a slice reaches the dispatch stage (its batch message
fetch succeeded) and the annotation collaborator's own ledger read
succeeds, the annotation collaborator is invoked and returns normally even
when its per-thread work fails (those failures are swallowed inside
`autoAnnotate`), and the embedding dispatch is then made for every thread
of the slice, whatever the annotation and embedding per-thread outcomes;
no slice-level error is logged, so dispatch failures never abort the
slice. -/
theorem embeddings_dispatch_despite_failures (o : PipelineOracles)
    (slice : List String) (ms : List Unit)
    (hreach : (processSlice o slice).batchGet = some (Except.ok ms))
    (hann : o.annotationsFetch = Except.ok ()) :
    (∃ anns, (processSlice o slice).annotateResult = some (Except.ok anns))
    ∧ (processSlice o slice).embeds =
        slice.map (fun tid => (tid, o.embed tid))
    ∧ (processSlice o slice).sliceErrorLogged = none := by
  unfold processSlice at hreach ⊢
  by_cases hempty : (sliceMessageIds o slice).isEmpty
  · rw [if_pos hempty] at hreach
    exact absurd hreach (by simp)
  · rw [if_neg hempty] at hreach ⊢
    cases hbg : batchGetMessages o.messageGet (sliceMessageIds o slice) with
    | error e =>
      rw [hbg] at hreach
      exact absurd hreach (by simp)
    | ok ms2 =>
      simp only [hann, autoAnnotate_ok]
      exact ⟨⟨_, rfl⟩, by trivial, by trivial⟩

/-- Witness for C8 at a concrete slice where the annotation work for "t1"
fails and the embedding for "t2" fails: embeddings are still dispatched for
both threads and no slice error is logged. -/
theorem embeddings_dispatch_despite_failures_witness :
    (∃ anns, (processSlice mixedFailOracle ["t1", "t2"]).annotateResult =
      some (Except.ok anns))
    ∧ (processSlice mixedFailOracle ["t1", "t2"]).embeds =
        (["t1", "t2"]).map (fun tid => (tid, mixedFailOracle.embed tid))
    ∧ (processSlice mixedFailOracle ["t1", "t2"]).sliceErrorLogged = none :=
  embeddings_dispatch_despite_failures mixedFailOracle ["t1", "t2"]
    [(), ()] (by rfl) rfl

/-- Counterexample to C9 as stated: a run in which the only slice's batch
fetch fails ("boom" is caught and logged inside processThreads), yet the
pipeline returns success and the handler's disposition is `complete` — the
bus message is acknowledged as successful, so slice failures are not routed
through the retry/dead-letter decision. -/
theorem slice_failure_still_completes_cx :
    processMessage (Except.ok []) none
        [Except.ok { items := [JsStr.str "t1"], nextPageToken := JsStr.undef }]
        c9Oracle =
      some (Except.ok
        [{ threadsData := [some { messages := [JsStr.str "m1"] }],
           messageIds := [JsStr.str "m1"],
           batchGet := some (Except.error "boom"),
           annotateResult := none, embeds := [],
           sliceErrorLogged := some "boom" }], none)
    ∧ handlerAction
        (pipelineOutcome (Except.ok (processThreads c9Oracle ["t1"])))
        (some 0) = BusAction.complete :=
  ⟨rfl, rfl⟩

/-- Claim C9 (amended): failures of the dedup-ledger read and of thread
discovery propagate to the message handler, which is the decision point for
retry versus dead-letter; but failures inside a slice's batch fetching or
dispatching are caught and logged inside `processThreads`, so whenever
discovery succeeds the pipeline reports success — whatever the batch
oracles do — and the handler completes (acknowledges) the message. -/
theorem pipeline_error_propagation (ef : Except String (List String))
    (store : Option String) (pages : List (Except String ThreadListPage))
    (o : PipelineOracles) (dc : Option Nat) :
    (∀ e, ef = Except.error e →
      processMessage ef store pages o = some (Except.error e, store) ∧
        handlerAction (pipelineOutcome (Except.error e)) dc =
          handleMessageError dc e)
    ∧ (∀ (ex : List String) (e : String) (st : Option String) (c : Nat),
        ef = Except.ok ex →
        fetchNewThreads ex store pages = some (Except.error e, st, c) →
        processMessage ef store pages o = some (Except.error e, st) ∧
          handlerAction (pipelineOutcome (Except.error e)) dc =
            handleMessageError dc e)
    ∧ (∀ (ex : List String) (tids : List String) (st : Option String)
        (c : Nat),
        ef = Except.ok ex →
        fetchNewThreads ex store pages = some (Except.ok tids, st, c) →
        processMessage ef store pages o =
            some (Except.ok (processThreads o tids), st) ∧
          handlerAction
            (pipelineOutcome (Except.ok (processThreads o tids))) dc =
            BusAction.complete) := by
  refine ⟨?_, ?_, ?_⟩
  · intro e he
    subst he
    exact ⟨rfl, rfl⟩
  · intro ex e st c he hf
    subst he
    refine ⟨?_, rfl⟩
    simp only [processMessage]
    rw [hf]
  · intro ex tids st c he hf
    subst he
    refine ⟨?_, rfl⟩
    simp only [processMessage]
    rw [hf]

/-- Witness for C9 (amended) at concrete inputs: a failing ledger read
propagates; a successful empty discovery completes the message. -/
theorem pipeline_error_propagation_witness :
    (processMessage (Except.error "dbfail") none [] trivialOracle =
        some (Except.error "dbfail", none) ∧
      handlerAction (pipelineOutcome (Except.error "dbfail")) (some 0) =
        handleMessageError (some 0) "dbfail")
    ∧ (processMessage (Except.ok []) none
          [Except.ok { items := [], nextPageToken := JsStr.undef }]
          trivialOracle =
        some (Except.ok (processThreads trivialOracle []), none) ∧
      handlerAction
        (pipelineOutcome (Except.ok (processThreads trivialOracle [])))
        (some 0) = BusAction.complete) :=
  ⟨(pipeline_error_propagation (Except.error "dbfail") none [] trivialOracle
      (some 0)).1 "dbfail" rfl,
   (pipeline_error_propagation (Except.ok []) none
      [Except.ok { items := [], nextPageToken := JsStr.undef }] trivialOracle
      (some 0)).2.2 [] [] none 1 rfl (by rfl)⟩

end Warpmail
